import Mathlib

/-!
# Verification of the lazy-link field core (`LazyLinkfield`)

Shallow embedding of the `LazyLinkfield` class (src/unnamed/part_000) from the
openapi-designer repository, together with proofs of the frozen claims about it.

Modelling conventions:

* JavaScript values are modelled by the inductive `JSVal`; objects are ordered
  association lists (enumeration order = list order).  `undefined` is the
  `JSVal.undefined` constructor.
* Property access `o[k]` is modelled by the total function `JSVal.getProp`,
  returning `undefined` for missing keys and for non-object bases.  (Real
  JavaScript throws a `TypeError` when the base is `undefined` or `null`; the
  claims under verification only exercise defined paths, and both sides of every
  refinement theorem use the same access function, so this totalisation does not
  distort any claim.)
* The generic `Field` base class is not part of the repository sources (the spec
  declares it an external collaborator), so its operations consumed by
  `LazyLinkfield` — `super.shouldDisplay`, `super.revalidate`,
  `super.resolvePath`, `super.init`, `onSetValue`, `resolveRef`, `clone`, the
  parent collapsed flags — enter the model as an explicit environment
  (`LazyEnv`) of uninterpreted behaviours.
* The child `FieldNode` is likewise external; it is modelled by `ChildNode`,
  whose `value` slot realises the external get/set contract (`setValue` stores,
  `getValue` reads), whose `raw` field is the plain-object view mutated by the
  override machinery, and whose remaining behaviours are uninterpreted function
  fields.  `resolveRef` on the child is modelled as returning the *location*
  (path) of the resolved node inside `raw`, so that the in-place JavaScript
  mutation of the resolved alias becomes a functional update of `raw`.
-/



/-- A JavaScript value.  Objects are ordered association lists of own
properties; numbers are modelled by integers (no claim involves floating
point arithmetic). -/
inductive JSVal where
  | undefined : JSVal
  | null : JSVal
  | bool : Bool → JSVal
  | num : Int → JSVal
  | str : String → JSVal
  | obj : List (String × JSVal) → JSVal

namespace JSVal

/-- JavaScript truthiness of a value. -/
def truthy : JSVal → Bool
  | .undefined => false
  | .null => false
  | .bool b => b
  | .num n => n != 0
  | .str s => s ≠ ""
  | .obj _ => true

/-- Property lookup in an association list: first binding wins. -/
def lookupProp : List (String × JSVal) → String → JSVal
  | [], _ => .undefined
  | (k, v) :: rest, key => if k = key then v else lookupProp rest key

/-- `o[k]`: property access.  Missing keys and non-object bases yield
`undefined` (JavaScript throws for `undefined`/`null` bases; see the module
comment). -/
def getProp : JSVal → String → JSVal
  | .obj fields, key => lookupProp fields key
  | _, _ => .undefined

/-- Whether an object has an own property (`hasOwnProperty`).  Non-objects
have none. -/
def hasOwn : JSVal → String → Bool
  | .obj fields, key => fields.any (fun kv => kv.1 = key)
  | _, _ => false

/-- Update a binding in an association list, keeping its position, or append
it at the end — the JavaScript assignment order semantics. -/
def setEntry : List (String × JSVal) → String → JSVal → List (String × JSVal)
  | [], key, v => [(key, v)]
  | (k, w) :: rest, key, v =>
    if k = key then (k, v) :: rest else (k, w) :: setEntry rest key v

/-- `o[k] = v`: property assignment.  On non-objects this is a no-op (strict
mode JavaScript throws; no claim exercises that case). -/
def setProp : JSVal → String → JSVal → JSVal
  | .obj fields, key, v => .obj (setEntry fields key v)
  | o, _, _ => o

/-- Remove a binding from an association list. -/
def delEntry : List (String × JSVal) → String → List (String × JSVal)
  | [], _ => []
  | (k, w) :: rest, key =>
    if k = key then delEntry rest key else (k, w) :: delEntry rest key

/-- `delete o[k]`: property deletion.  On non-objects this is a no-op. -/
def delProp : JSVal → String → JSVal
  | .obj fields, key => .obj (delEntry fields key)
  | o, _ => o

/-- Whether the value is exactly `null` (the `value === null` test). -/
def isNull : JSVal → Bool
  | .null => true
  | _ => false

end JSVal

/-- `LazyLinkfield.resolveRawPath(object, path)`, translated from the source:

    resolveRawPath(object, path) {
      if (path.length === 0) { return object; }
      else if (path[0] === '#') { return this.resolveRawPath(object, path.splice(1)); }
      return this.resolveRawPath(object[path[0]], path.splice(1));
    }

`path.splice(1)` consumes the head destructively in JavaScript; functionally it
is the tail of the list. -/
def resolveRawPath (object : JSVal) : List String → JSVal
  | [] => object
  | seg :: rest =>
    if seg = "#" then resolveRawPath object rest
    else resolveRawPath (object.getProp seg) rest

/-- Modelled from the spec (§4.1 PathResolver contract): the reference fold
that steps through the segments, skipping the sentinel segment used for
"stay at current root", and stepping into the named property otherwise. -/
def resolveRawPathFromSpec (object : JSVal) (path : List String) : JSVal :=
  path.foldl (fun acc seg => if seg = "#" then acc else acc.getProp seg) object

/-- Whether a value is an object. -/
def JSVal.isObj : JSVal → Bool
  | .obj _ => true
  | _ => false

/-- Walk a container path inside a value (skipping the `#` sentinel exactly as
`resolveRawPath` does) and update the container found at its end with `f`,
rebuilding the tree on the way out.  `none` models the JavaScript `TypeError`
raised when the walk steps through a non-object or `f` refuses the container;
the callers keep the tree unchanged in that case (the exception aborts child
creation in JavaScript; no claim exercises the failing case). -/
def updateAtPath (o : JSVal) : List String → (JSVal → Option JSVal) → Option JSVal
  | [], f => f o
  | seg :: rest, f =>
    if seg = "#" then updateAtPath o rest f
    else match o with
      | .obj fields =>
        (updateAtPath (JSVal.lookupProp fields seg) rest f).map
          (fun v => JSVal.setProp (.obj fields) seg v)
      | _ => none

/-- JavaScript `string.includes(c)` for a one-character needle. -/
def hasChar (s : String) (c : Char) : Bool := s.data.any (fun x => x = c)

/-- Accumulator recursion behind `splitOnChar`. -/
def splitAux (c : Char) : List Char → List Char → List String
  | [], acc => [String.mk acc.reverse]
  | x :: xs, acc =>
    if x = c then String.mk acc.reverse :: splitAux c xs []
    else splitAux c xs (x :: acc)

/-- JavaScript `string.split(c)` for a one-character separator: the maximal
runs between occurrences of the separator, empty runs included. -/
def splitOnChar (s : String) (c : Char) : List String := splitAux c s.data []

/-- The body of the override loop in `LazyLinkfield.createChild`, one entry
`(field, value)` applied to the plain-object view `root` of the freshly cloned
child:

    if (field.includes(';')) {
      [elementPath, fieldPath] = field.split(';');
      fieldPath = fieldPath.split('/');
      target = this.child.resolveRef(elementPath);
    } else {
      fieldPath = field.split('/');
      target = this.child;
    }
    const lastFieldPathEntry = fieldPath.splice(-1)[0];
    target = this.resolveRawPath(target, fieldPath);
    if (value === null) { delete target[lastFieldPathEntry]; }
    else { target[lastFieldPathEntry] = value; }

`resolveRef` on the child is external (base `Field`); it is modelled as
returning the location of the resolved node inside `root`, so that mutating the
resolved alias becomes a functional update at `location ++ fieldPath`.  A
failed `resolveRef` (undefined target) makes the subsequent access throw in
JavaScript; the model leaves `root` unchanged there. -/
def applyOverride (resolveRef : String → Option (List String)) (root : JSVal)
    (field : String) (value : JSVal) : JSVal :=
  let routed : Option (List String × List String) :=
    if hasChar field ';' then
      match splitOnChar field ';' with
      | elementPath :: fieldPathStr :: _ =>
        (resolveRef elementPath).map (fun loc => (loc, splitOnChar fieldPathStr '/'))
      | _ => none
    else
      some ([], splitOnChar field '/')
  match routed with
  | none => root
  | some (loc, fieldPath) =>
    match fieldPath.getLast? with
    | none => root
    | some lastFieldPathEntry =>
      let write : JSVal → Option JSVal := fun c =>
        match c with
        | .obj fields =>
          some (if value.isNull
            then JSVal.delProp (.obj fields) lastFieldPathEntry
            else JSVal.setProp (.obj fields) lastFieldPathEntry value)
        | _ => none
      (updateAtPath root (loc ++ fieldPath.dropLast) write).getD root

/-- The override loop of `createChild`: `Object.entries(this.overrides)` is the
association list in enumeration order, each entry applied in turn to the child
tree. -/
def applyOverrides (resolveRef : String → Option (List String)) (root : JSVal)
    (overrides : List (String × JSVal)) : JSVal :=
  overrides.foldl (fun acc fv => applyOverride resolveRef acc fv.1 fv.2) root

/-- Modelled from the spec (§4.1): rebuild the tree with a new container put
back at the end of a container path, skipping the stay-at-root sentinel;
`none` when the walk steps through a non-object. -/
def writeBackAtPath (o : JSVal) (path : List String) (newContainer : JSVal) :
    Option JSVal :=
  match path with
  | [] => some newContainer
  | seg :: rest =>
    if seg = "#" then writeBackAtPath o rest newContainer
    else match o with
      | .obj fields =>
        (writeBackAtPath (JSVal.lookupProp fields seg) rest newContainer).map
          (fun v => JSVal.setProp (.obj fields) seg v)
      | _ => none

/-- Modelled from the spec (§4.2 OverrideApplier, steps 1–4): route the entry
(semicolon-scoped through the reference resolver of the child, else the child
itself), split off the last segment as the terminal property name, resolve the
preceding segments to the terminal container, then delete the terminal property
when the value is exactly null and set it otherwise. -/
def applyOverrideFromSpec (resolveRef : String → Option (List String))
    (root : JSVal) (field : String) (value : JSVal) : JSVal :=
  let routed : Option (List String × List String) :=
    if hasChar field ';' then
      match splitOnChar field ';' with
      | elementPath :: fieldPathStr :: _ =>
        (resolveRef elementPath).map (fun loc => (loc, splitOnChar fieldPathStr '/'))
      | _ => none
    else
      some ([], splitOnChar field '/')
  match routed with
  | none => root
  | some (loc, fieldPath) =>
    match fieldPath.getLast? with
    | none => root
    | some terminalName =>
      let containerPath := loc ++ fieldPath.dropLast
      let container := resolveRawPathFromSpec root containerPath
      if container.isObj then
        let newContainer := if value.isNull
          then container.delProp terminalName
          else container.setProp terminalName value
        (writeBackAtPath root containerPath newContainer).getD root
      else root

/-- Modelled from the spec (§4.2): overrides are applied in the iteration
(insertion) order of the mapping; later entries targeting overlapping paths
win. -/
def applyOverridesFromSpec (resolveRef : String → Option (List String))
    (root : JSVal) (overrides : List (String × JSVal)) : JSVal :=
  overrides.foldl (fun acc fv => applyOverrideFromSpec resolveRef acc fv.1 fv.2) root

/-- Model of the external child `FieldNode` (the clone of the target).  The
`value` slot realises the external get/set contract; `raw` is the plain-object
view of the cloned subtree that the override machinery mutates; the remaining
behaviours of the node are uninterpreted functions supplied with the node. -/
structure ChildNode where
  /-- Current value: `getValue()` reads it, `setValue(v)` stores into it. -/
  value : JSVal
  /-- Plain-object view of the cloned subtree; override application mutates it. -/
  raw : JSVal
  /-- Result of `child.isEmpty()`. -/
  empty : Bool
  /-- Result of `child.revalidate(errorCollection)`, as a function of the
  error collection. -/
  revalidateFn : JSVal → JSVal
  /-- Result of `child.resolvePath(pathSegments)`; `none` is `undefined`,
  `some` is a (truthy) field node. -/
  resolvePathFn : List String → Option JSVal
  /-- `child.resolveRef(elementPath)`, modelled as the location of the resolved
  node inside `raw` (`none` when resolution finds nothing). -/
  resolveRefFn : String → Option (List String)

/-- The behaviours `LazyLinkfield` consumes from the external `Field` base
class and from its surroundings, fixed during one operation. -/
structure LazyEnv where
  /-- Result of `super.shouldDisplay()`. -/
  superShouldDisplay : Bool
  /-- Truthiness of `this.parent`. -/
  hasParent : Bool
  /-- Truthiness of `this.parent.isCollapsible`. -/
  parentIsCollapsible : Bool
  /-- Truthiness of `this.parent.collapsed`. -/
  parentCollapsed : Bool
  /-- `this.resolveRef(this.target).clone(this)`: the freshly cloned child,
  before overrides are applied. -/
  clonedTarget : ChildNode
  /-- Effect of `super.init(id, args)` on the inherited base state. -/
  superInit : String → JSVal → JSVal
  /-- Effect of the `onSetValue` pre-hook on the inherited base state. -/
  onSetValue : JSVal → JSVal → JSVal
  /-- Result of `super.revalidate(errorCollection)`, an object. -/
  superRevalidate : JSVal → JSVal
  /-- Result of `super.resolvePath(pathSegments)`; `none` is `undefined`,
  `some` a (truthy) field node. -/
  superResolvePath : List String → Option JSVal

/-- The mutable state of a `LazyLinkfield` instance: its own class fields
`target`, `overrides`, `child`, `cachedValue`, plus an opaque blob `base` for
the inherited `Field` state (touched only through the base-class hooks). -/
structure LazyState where
  target : String
  overrides : List (String × JSVal)
  child : Option ChildNode
  cachedValue : JSVal
  base : JSVal

/-- A freshly constructed field: the class field initializers
`target = '#'`, `overrides = {}`, `child = undefined`,
`cachedValue = undefined`. -/
def freshState (base : JSVal) : LazyState :=
  { target := "#", overrides := [], child := none, cachedValue := .undefined,
    base := base }

/-- Constructor arguments consumed by `init`: `args.target` (a string or
absent) and `args.overrides` (a mapping or absent). -/
structure InitArgs where
  target : Option String
  overrides : Option (List (String × JSVal))

namespace LazyLinkfield

/-- `init(id, args)`:

    this.target = args.target || '#';
    this.overrides = args.overrides || {};
    return super.init(id, args);

`args.target || '#'` falls back to `'#'` when `args.target` is absent or the
empty (falsy) string. -/
def init (env : LazyEnv) (id : String) (args : InitArgs) (s : LazyState) :
    LazyState :=
  { s with
    target := match args.target with
      | some t => if t = "" then "#" else t
      | none => "#"
    overrides := args.overrides.getD []
    base := env.superInit id s.base }

/-- `createChild()`: clone the resolved target, apply the overrides to the
clone, then push a truthy cached value into the child and clear the cache:

    this.child = this.resolveRef(this.target).clone(this);
    for (const [field, value] of Object.entries(this.overrides)) { ... }
    if (this.cachedValue) {
      this.child.setValue(this.cachedValue);
      this.cachedValue = undefined;
    }
-/
def createChild (env : LazyEnv) (s : LazyState) : LazyState :=
  let cloned := env.clonedTarget
  let cloned := { cloned with
    raw := applyOverrides cloned.resolveRefFn cloned.raw s.overrides }
  if s.cachedValue.truthy then
    { s with
      child := some { cloned with value := s.cachedValue }
      cachedValue := .undefined }
  else
    { s with child := some cloned }

/-- `deleteChild()`: `this.child = undefined`. -/
def deleteChild (s : LazyState) : LazyState :=
  { s with child := none }

/-- `shouldDisplay()`:

    const display = super.shouldDisplay();
    if (display) {
      const isParentCollapsed = this.parent && this.parent.isCollapsible && this.parent.collapsed;
      if (this.child === undefined && !isParentCollapsed) { this.createChild(); }
    } else if (this.child !== undefined) {
      this.cachedValue = this.child.getValue();
      this.deleteChild();
    }
    return display;
-/
def shouldDisplay (env : LazyEnv) (s : LazyState) : Bool × LazyState :=
  let display := env.superShouldDisplay
  if display then
    let isParentCollapsed :=
      env.hasParent && env.parentIsCollapsible && env.parentCollapsed
    if s.child.isNone && !isParentCollapsed then
      (display, createChild env s)
    else
      (display, s)
  else
    match s.child with
    | some c => (display, deleteChild { s with cachedValue := c.value })
    | none => (display, s)

/-- `setValue(value)`:

    this.onSetValue(value);
    if (!this.child) { this.cachedValue = value; return; }
    this.child.setValue(value);
-/
def setValue (env : LazyEnv) (v : JSVal) (s : LazyState) : LazyState :=
  let s := { s with base := env.onSetValue v s.base }
  match s.child with
  | none => { s with cachedValue := v }
  | some c => { s with child := some { c with value := v } }

/-- `getValue()`: the value of the child when one exists, else the cached
value. -/
def getValue (s : LazyState) : JSVal :=
  match s.child with
  | some c => c.value
  | none => s.cachedValue

/-- `isEmpty()`: with no child, true iff the cached value is falsy; else
delegate to the child. -/
def isEmpty (s : LazyState) : Bool :=
  match s.child with
  | none => !s.cachedValue.truthy
  | some c => c.empty

/-- `revalidate(errorCollection)`:

    const validation = super.revalidate(errorCollection);
    if (this.child) { validation.child = this.child.revalidate(errorCollection); }
    else { validation.child = { valid: true }; }
    validation.childrenValid = validation.child.hasOwnProperty('childrenValid')
        ? validation.child.childrenValid
        : validation.child.valid;
    return validation;
-/
def revalidate (env : LazyEnv) (ec : JSVal) (s : LazyState) : JSVal :=
  let validation := env.superRevalidate ec
  let validation := validation.setProp "child"
    (match s.child with
      | some c => c.revalidateFn ec
      | none => JSVal.obj [("valid", .bool true)])
  let childrenValid :=
    if (validation.getProp "child").hasOwn "childrenValid"
    then (validation.getProp "child").getProp "childrenValid"
    else (validation.getProp "child").getProp "valid"
  validation.setProp "childrenValid" childrenValid

/-- `resolvePath(path)`:

    const parentResolveResult = super.resolvePath(path);
    if (parentResolveResult) { return parentResolveResult; }
    if (this.child && path[0] === ':child') { return this.child.resolvePath(path.splice(1)); }
    return undefined;
-/
def resolvePath (env : LazyEnv) (s : LazyState) (path : List String) :
    Option JSVal :=
  match env.superResolvePath path with
  | some r => some r
  | none =>
    match s.child, path with
    | some c, p :: rest => if p = ":child" then c.resolvePathFn rest else none
    | _, _ => none

end LazyLinkfield

/-- A concrete child node used to evaluate the model at specific inputs:
the clone carries the value of the template field. -/
def sampleChild : ChildNode :=
  { value := .str "template"
    raw := .obj []
    empty := false
    revalidateFn := fun _ => .obj [("valid", .bool true)]
    resolvePathFn := fun _ => none
    resolveRefFn := fun _ => none }

/-- A concrete environment: the field is visible and the parent is not a
collapsed collapsible. -/
def sampleEnv : LazyEnv :=
  { superShouldDisplay := true
    hasParent := true
    parentIsCollapsible := false
    parentCollapsed := false
    clonedTarget := sampleChild
    superInit := fun _ b => b
    onSetValue := fun _ b => b
    superRevalidate := fun _ => .obj [("valid", .bool true)]
    superResolvePath := fun _ => none }

/-- The concrete environment with the field invisible. -/
def sampleEnvHidden : LazyEnv := { sampleEnv with superShouldDisplay := false }

/-- The concrete environment with a collapsed collapsible parent. -/
def sampleEnvCollapsed : LazyEnv :=
  { sampleEnv with parentIsCollapsible := true, parentCollapsed := true }

/-- A concrete field state in the Active state (child present). -/
def activeState : LazyState :=
  { target := "#", overrides := [], child := some sampleChild,
    cachedValue := .undefined, base := .undefined }

/-- One public operation of a `LazyLinkfield`, its environment (visibility,
base-class behaviour) chosen at call time.  The read-only operations
(`getValue`, `isEmpty`, `revalidate`, `resolvePath`) do not change the field
state and appear as identity steps. -/
inductive LLStep : LazyState → LazyState → Prop where
  | init (env : LazyEnv) (id : String) (args : InitArgs) (s : LazyState) :
      LLStep s (LazyLinkfield.init env id args s)
  | setValue (env : LazyEnv) (v : JSVal) (s : LazyState) :
      LLStep s (LazyLinkfield.setValue env v s)
  | shouldDisplay (env : LazyEnv) (s : LazyState) :
      LLStep s (LazyLinkfield.shouldDisplay env s).2
  | getValue (s : LazyState) : LLStep s s
  | isEmpty (s : LazyState) : LLStep s s
  | revalidate (s : LazyState) : LLStep s s
  | resolvePath (s : LazyState) : LLStep s s

/-- A state of a `LazyLinkfield` reachable from construction through public
operations. -/
def Reachable (b : JSVal) (s : LazyState) : Prop :=
  Relation.ReflTransGen LLStep (freshState b) s

/-- Modelled from the spec (§4.4 `revalidate`): compute the base validation
result, attach the child sub-result (the child revalidation when Active, the
trivially-valid result when Absent), and derive the `childrenValid` flag
directly from the child result — propagate its own `childrenValid` flag when
it reports one, else fall back to its `valid` flag. -/
def revalidateFromSpec (env : LazyEnv) (ec : JSVal) (s : LazyState) : JSVal :=
  let baseResult := env.superRevalidate ec
  let childResult :=
    match s.child with
    | some c => c.revalidateFn ec
    | none => JSVal.obj [("valid", .bool true)]
  let derived :=
    if childResult.hasOwn "childrenValid" then childResult.getProp "childrenValid"
    else childResult.getProp "valid"
  (baseResult.setProp "child" childResult).setProp "childrenValid" derived

/-- A concrete child that resolves the path `["foo"]` to a node. -/
def resolvingChild : ChildNode :=
  { sampleChild with
    resolvePathFn := fun p => if p = ["foo"] then some (.str "X") else none }

/-- A concrete Active state whose child resolves `["foo"]`. -/
def activeResolving : LazyState := { activeState with child := some resolvingChild }

/-- C7: `resolveRawPath(object, pathSegments)` returns `object` on the empty
list, consumes a `#` head staying at the same object, and otherwise steps into
`object[head]` — i.e. it equals the reference fold that walks the segments
skipping `#` markers. -/
theorem resolveRawPath_eq_fold (object : JSVal) (path : List String) :
    resolveRawPath object path = resolveRawPathFromSpec object path := by
  induction path generalizing object with
  | nil => rfl
  | cons seg rest ih =>
    unfold resolveRawPath resolveRawPathFromSpec
    by_cases h : seg = "#"
    · simp [h, ih, resolveRawPathFromSpec]
    · simp [h, ih, resolveRawPathFromSpec]

/-- A value that is not an object stays a non-object under the path fold:
once the walk leaves the object world every further step yields undefined. -/
theorem isObj_resolveRawPathFromSpec (o : JSVal) (path : List String)
    (h : o.isObj = false) : (resolveRawPathFromSpec o path).isObj = false := by
  induction path generalizing o with
  | nil => exact h
  | cons seg rest ih =>
    unfold resolveRawPathFromSpec
    by_cases hs : seg = "#"
    · simpa [resolveRawPathFromSpec, hs] using ih o h
    · have hgp : (o.getProp seg).isObj = false := by
        cases o <;> simp_all [JSVal.getProp, JSVal.isObj]
      simpa [resolveRawPathFromSpec, hs] using ih (o.getProp seg) hgp

/-- Updating the container at the end of a path in place equals resolving the
container first and writing the modified container back, for update functions
defined exactly on objects. -/
theorem updateAtPath_eq_resolve_writeBack (g : JSVal → JSVal) (path : List String) :
    ∀ o : JSVal,
      updateAtPath o path
          (fun c => match c with
            | .obj fields => some (g (.obj fields))
            | _ => none) =
        (match resolveRawPathFromSpec o path with
          | .obj fields => writeBackAtPath o path (g (.obj fields))
          | _ => none) := by
  induction path with
  | nil =>
    intro o
    cases o <;> rfl
  | cons seg rest ih =>
    intro o
    by_cases hs : seg = "#"
    · simpa [updateAtPath, writeBackAtPath, resolveRawPathFromSpec, hs] using ih o
    · cases o with
      | obj fields =>
        have := ih (JSVal.lookupProp fields seg)
        simp only [updateAtPath, writeBackAtPath, hs, if_neg hs, ite_false]
        rw [this]
        have hstep : resolveRawPathFromSpec (JSVal.obj fields) (seg :: rest) =
            resolveRawPathFromSpec (JSVal.lookupProp fields seg) rest := by
          simp [resolveRawPathFromSpec, hs, JSVal.getProp]
        rw [hstep]
        cases hres : resolveRawPathFromSpec (JSVal.lookupProp fields seg) rest <;>
          simp [writeBackAtPath, hs]
      | undefined =>
        have hno : (resolveRawPathFromSpec JSVal.undefined (seg :: rest)).isObj = false :=
          isObj_resolveRawPathFromSpec _ _ rfl
        simp only [updateAtPath, hs, ite_false, if_neg hs]
        cases hres : resolveRawPathFromSpec JSVal.undefined (seg :: rest) <;>
          simp_all [JSVal.isObj]
      | null =>
        have hno : (resolveRawPathFromSpec JSVal.null (seg :: rest)).isObj = false :=
          isObj_resolveRawPathFromSpec _ _ rfl
        simp only [updateAtPath, hs, ite_false, if_neg hs]
        cases hres : resolveRawPathFromSpec JSVal.null (seg :: rest) <;>
          simp_all [JSVal.isObj]
      | bool b =>
        have hno : (resolveRawPathFromSpec (JSVal.bool b) (seg :: rest)).isObj = false :=
          isObj_resolveRawPathFromSpec _ _ rfl
        simp only [updateAtPath, hs, ite_false, if_neg hs]
        cases hres : resolveRawPathFromSpec (JSVal.bool b) (seg :: rest) <;>
          simp_all [JSVal.isObj]
      | num n =>
        have hno : (resolveRawPathFromSpec (JSVal.num n) (seg :: rest)).isObj = false :=
          isObj_resolveRawPathFromSpec _ _ rfl
        simp only [updateAtPath, hs, ite_false, if_neg hs]
        cases hres : resolveRawPathFromSpec (JSVal.num n) (seg :: rest) <;>
          simp_all [JSVal.isObj]
      | str s =>
        have hno : (resolveRawPathFromSpec (JSVal.str s) (seg :: rest)).isObj = false :=
          isObj_resolveRawPathFromSpec _ _ rfl
        simp only [updateAtPath, hs, ite_false, if_neg hs]
        cases hres : resolveRawPathFromSpec (JSVal.str s) (seg :: rest) <;>
          simp_all [JSVal.isObj]

/-- One override entry: the in-place loop body equals the spec's
resolve-then-write-back description. -/
theorem applyOverride_eq_fromSpec (resolveRef : String → Option (List String))
    (root : JSVal) (field : String) (value : JSVal) :
    applyOverride resolveRef root field value =
      applyOverrideFromSpec resolveRef root field value := by
  unfold applyOverride applyOverrideFromSpec
  cases hr : (if hasChar field ';' then
      match splitOnChar field ';' with
      | elementPath :: fieldPathStr :: _ =>
        (resolveRef elementPath).map (fun loc => (loc, splitOnChar fieldPathStr '/'))
      | _ => none
    else some ([], splitOnChar field '/')) with
  | none => simp [hr]
  | some lp =>
    obtain ⟨loc, fieldPath⟩ := lp
    simp only [hr]
    cases hl : fieldPath.getLast? with
    | none => rfl
    | some lastFieldPathEntry =>
      simp only
      rw [updateAtPath_eq_resolve_writeBack
        (fun c => if value.isNull then JSVal.delProp c lastFieldPathEntry
          else JSVal.setProp c lastFieldPathEntry value)]
      cases hres : resolveRawPathFromSpec root (loc ++ fieldPath.dropLast) <;>
        simp [JSVal.isObj]

/-- C5: during child creation the overrides are applied to the cloned child in
the iteration (insertion) order of the mapping; each entry is routed through
the semicolon syntax (element path resolved by the reference resolver of the
child) or rooted at the child itself with the field split on the slash, the
last segment is the terminal property name, the preceding segments resolve the
terminal container, and the terminal property is deleted when the value is
exactly null and set to the value otherwise. -/
theorem applyOverrides_eq_fromSpec (resolveRef : String → Option (List String))
    (root : JSVal) (overrides : List (String × JSVal)) :
    applyOverrides resolveRef root overrides =
      applyOverridesFromSpec resolveRef root overrides := by
  unfold applyOverrides applyOverridesFromSpec
  induction overrides generalizing root with
  | nil => rfl
  | cons fv rest ih =>
    simp only [List.foldl_cons, applyOverride_eq_fromSpec, ih]

example :
    applyOverrides (fun _ => none)
      (.obj [("a", .obj [("b", .obj [("c", .num 1)])])])
      [("a/b/c", .num 2)] =
    .obj [("a", .obj [("b", .obj [("c", .num 2)])])] := rfl

example :
    applyOverrides (fun _ => none)
      (.obj [("a", .obj [("b", .obj [("c", .num 1), ("d", .num 3)])])])
      [("a/b/c", .null)] =
    .obj [("a", .obj [("b", .obj [("d", .num 3)])])] := rfl

example :
    applyOverrides (fun p => if p = "sub" then some ["sub"] else none)
      (.obj [("x", .obj [("y", .num 0)]), ("sub", .obj [("x", .obj [("y", .num 1)])])])
      [("sub;x/y", .num 5)] =
    .obj [("x", .obj [("y", .num 0)]), ("sub", .obj [("x", .obj [("y", .num 5)])])] := rfl

/-- The child slot is always filled right after `createChild`. -/
theorem createChild_child_isNone (env : LazyEnv) (s : LazyState) :
    (LazyLinkfield.createChild env s).child.isNone = false := by
  unfold LazyLinkfield.createChild
  by_cases hv : s.cachedValue.truthy <;> simp [hv]

/-- C1 as stated is false at the falsy value `false`: after `setValue(false)`
on an Absent field and a visibility-driven transition to Active, `getValue()`
returns the value of the clone of the template (not `false`), and
`cachedValue` still holds `false` instead of being cleared, because
`createChild` transfers the cached value only when it is truthy. -/
theorem setValue_display_roundtrip_counterexample :
    (freshState .undefined).child = none ∧
    (LazyLinkfield.shouldDisplay sampleEnv
      (LazyLinkfield.setValue sampleEnv (.bool false) (freshState .undefined))).1 = true ∧
    ¬ (LazyLinkfield.getValue
        (LazyLinkfield.shouldDisplay sampleEnv
          (LazyLinkfield.setValue sampleEnv (.bool false) (freshState .undefined))).2 =
        .bool false) ∧
    ¬ ((LazyLinkfield.shouldDisplay sampleEnv
          (LazyLinkfield.setValue sampleEnv (.bool false) (freshState .undefined))).2.cachedValue =
        .undefined) := by
  refine ⟨rfl, rfl, fun h => ?_, fun h => ?_⟩
  · exact JSVal.noConfusion h
  · exact JSVal.noConfusion h

/-- C1 amended to truthy values: for every truthy `v`, `setValue(v)` on an
Absent field followed by the Absent-to-Active transition (visible, parent not
collapsed) makes `getValue()` return `v` immediately after creation and leaves
`cachedValue` cleared (undefined). -/
theorem setValue_display_roundtrip (env : LazyEnv) (v : JSVal) (s : LazyState)
    (habs : s.child = none) (hv : v.truthy = true)
    (hdisp : env.superShouldDisplay = true)
    (hcol : (env.hasParent && env.parentIsCollapsible && env.parentCollapsed) = false) :
    (LazyLinkfield.shouldDisplay env (LazyLinkfield.setValue env v s)).1 = true ∧
    (LazyLinkfield.shouldDisplay env (LazyLinkfield.setValue env v s)).2.child.isSome = true ∧
    LazyLinkfield.getValue
      (LazyLinkfield.shouldDisplay env (LazyLinkfield.setValue env v s)).2 = v ∧
    (LazyLinkfield.shouldDisplay env (LazyLinkfield.setValue env v s)).2.cachedValue =
      .undefined := by
  have hset : LazyLinkfield.setValue env v s =
      { s with cachedValue := v, base := env.onSetValue v s.base } := by
    unfold LazyLinkfield.setValue
    rw [habs]
  rw [hset]
  unfold LazyLinkfield.shouldDisplay LazyLinkfield.createChild
  simp [hdisp, hcol, habs, hv, LazyLinkfield.getValue]

/-- Evaluation of the amended C1 at the number 5 in the concrete
environment. -/
theorem setValue_display_roundtrip_witness :
    LazyLinkfield.getValue
      (LazyLinkfield.shouldDisplay sampleEnv
        (LazyLinkfield.setValue sampleEnv (.num 5) (freshState .undefined))).2 = .num 5 ∧
    (LazyLinkfield.shouldDisplay sampleEnv
      (LazyLinkfield.setValue sampleEnv (.num 5) (freshState .undefined))).2.cachedValue =
      .undefined :=
  ⟨(setValue_display_roundtrip sampleEnv (.num 5) (freshState .undefined)
      rfl rfl rfl rfl).2.2.1,
   (setValue_display_roundtrip sampleEnv (.num 5) (freshState .undefined)
      rfl rfl rfl rfl).2.2.2⟩

/-- `setValue` preserves the exclusion between a present child and a truthy
cached value. -/
theorem setValue_preserves_exclusion (env : LazyEnv) (v : JSVal) (s : LazyState)
    (h : ∀ c, s.child = some c → s.cachedValue.truthy = false) :
    ∀ c, (LazyLinkfield.setValue env v s).child = some c →
      (LazyLinkfield.setValue env v s).cachedValue.truthy = false := by
  intro c hc
  unfold LazyLinkfield.setValue at hc ⊢
  cases hs : s.child with
  | none => simp [hs] at hc
  | some c₀ => simpa [hs] using h c₀ hs

/-- `shouldDisplay` preserves the exclusion between a present child and a
truthy cached value: child creation either transfers a truthy cache into the
child and clears it, or keeps an already-falsy cache. -/
theorem shouldDisplay_preserves_exclusion (env : LazyEnv) (s : LazyState)
    (h : ∀ c, s.child = some c → s.cachedValue.truthy = false) :
    ∀ c, (LazyLinkfield.shouldDisplay env s).2.child = some c →
      (LazyLinkfield.shouldDisplay env s).2.cachedValue.truthy = false := by
  intro c hc
  unfold LazyLinkfield.shouldDisplay at hc ⊢
  cases hd : env.superShouldDisplay with
  | true =>
    cases hcol : (env.hasParent && env.parentIsCollapsible && env.parentCollapsed) with
    | true =>
      simp [hd, hcol] at hc ⊢
      exact h c hc
    | false =>
      cases hs : s.child with
      | some c₀ => simpa [hd, hs] using h c₀ hs
      | none =>
        simp only [hd, hs, hcol] at hc ⊢
        unfold LazyLinkfield.createChild at hc ⊢
        cases hv : s.cachedValue.truthy with
        | true => simp [hv, JSVal.truthy]
        | false => simp [hv]
  | false =>
    cases hs : s.child with
    | none => simp [hd, hs] at hc
    | some c₀ => simp [hd, hs, LazyLinkfield.deleteChild] at hc

/-- C2 as stated is false: the state reached from a fresh field by
`setValue(0)` followed by a visible `shouldDisplay()` has a child *and* a
cached value of `0` (not undefined), because `createChild` only transfers and
clears a truthy cached value. -/
theorem child_cachedValue_invariant_counterexample :
    Reachable .undefined
      (LazyLinkfield.shouldDisplay sampleEnv
        (LazyLinkfield.setValue sampleEnv (.num 0) (freshState .undefined))).2 ∧
    (LazyLinkfield.shouldDisplay sampleEnv
      (LazyLinkfield.setValue sampleEnv (.num 0) (freshState .undefined))).2.child.isSome =
      true ∧
    ¬ ((LazyLinkfield.shouldDisplay sampleEnv
        (LazyLinkfield.setValue sampleEnv (.num 0) (freshState .undefined))).2.cachedValue =
        .undefined) := by
  refine ⟨?_, rfl, fun hcv => JSVal.noConfusion hcv⟩
  exact Relation.ReflTransGen.tail
    (Relation.ReflTransGen.tail Relation.ReflTransGen.refl
      (LLStep.setValue sampleEnv (.num 0) (freshState .undefined)))
    (LLStep.shouldDisplay sampleEnv
      (LazyLinkfield.setValue sampleEnv (.num 0) (freshState .undefined)))

/-- C2 amended: in every state reachable through the public operations,
whenever a child exists the cached value is falsy (it is `undefined` whenever
the cached value transferred at creation was truthy; a falsy pending value is
left in place but never truthy). -/
theorem child_excludes_truthy_cache (b : JSVal) (s : LazyState)
    (h : Reachable b s) :
    ∀ c, s.child = some c → s.cachedValue.truthy = false := by
  unfold Reachable at h
  induction h with
  | refl => intro c hc; exact Option.noConfusion hc
  | tail hpre hstep ih =>
    clear hpre
    revert ih
    cases hstep with
    | init env id args t => exact fun ih c hc => ih c hc
    | setValue env v t => exact fun ih => setValue_preserves_exclusion env v _ ih
    | shouldDisplay env t => exact fun ih => shouldDisplay_preserves_exclusion env _ ih
    | getValue t => exact fun ih => ih
    | isEmpty t => exact fun ih => ih
    | revalidate t => exact fun ih => ih
    | resolvePath t => exact fun ih => ih

/-- Evaluation of the amended C2 on a concrete reachable Active state: after
`setValue(7)` and a visible `shouldDisplay()`, the cached value is falsy. -/
theorem child_excludes_truthy_cache_witness :
    (LazyLinkfield.shouldDisplay sampleEnv
      (LazyLinkfield.setValue sampleEnv (.num 7) (freshState .undefined))).2.cachedValue.truthy =
      false :=
  child_excludes_truthy_cache .undefined _
    (Relation.ReflTransGen.tail
      (Relation.ReflTransGen.tail Relation.ReflTransGen.refl
        (LLStep.setValue sampleEnv (.num 7) (freshState .undefined)))
      (LLStep.shouldDisplay sampleEnv
        (LazyLinkfield.setValue sampleEnv (.num 7) (freshState .undefined))))
    { sampleChild with value := .num 7 } rfl

/-- C3: `shouldDisplay()` is idempotent as a state transformer: with the
underlying visibility condition unchanged, a second call returns the same
boolean and performs no further transition on the state — it never creates a
second child when one exists and never deletes a child when none exists. -/
theorem shouldDisplay_idempotent (env : LazyEnv) (s : LazyState) :
    LazyLinkfield.shouldDisplay env (LazyLinkfield.shouldDisplay env s).2 =
      LazyLinkfield.shouldDisplay env s := by
  unfold LazyLinkfield.shouldDisplay
  cases hd : env.superShouldDisplay with
  | true =>
    cases hcol : (env.hasParent && env.parentIsCollapsible && env.parentCollapsed) with
    | true => simp [hd, hcol]
    | false =>
      cases hs : s.child with
      | some c => simp [hd, hcol, hs]
      | none => simp [hd, hcol, hs, createChild_child_isNone]
  | false =>
    cases hs : s.child with
    | none => simp [hd, hs]
    | some c => simp [hd, hs, LazyLinkfield.deleteChild]

/-- C4: on an Active field whose child value is `v`, an invisible
`shouldDisplay()` returns false, captures `v` into `cachedValue`, deletes the
child, and `getValue()` on the resulting (Absent) state returns `v`. -/
theorem active_to_absent_roundtrip (env : LazyEnv) (s : LazyState) (c : ChildNode)
    (hc : s.child = some c) (hd : env.superShouldDisplay = false) :
    (LazyLinkfield.shouldDisplay env s).1 = false ∧
    (LazyLinkfield.shouldDisplay env s).2.child = none ∧
    (LazyLinkfield.shouldDisplay env s).2.cachedValue = c.value ∧
    LazyLinkfield.getValue (LazyLinkfield.shouldDisplay env s).2 = c.value := by
  unfold LazyLinkfield.shouldDisplay
  simp [hd, hc, LazyLinkfield.deleteChild, LazyLinkfield.getValue]

/-- Evaluation of C4 in the concrete hidden environment on the concrete
Active state. -/
theorem active_to_absent_roundtrip_witness :
    (LazyLinkfield.shouldDisplay sampleEnvHidden activeState).1 = false ∧
    (LazyLinkfield.shouldDisplay sampleEnvHidden activeState).2.child = none ∧
    LazyLinkfield.getValue (LazyLinkfield.shouldDisplay sampleEnvHidden activeState).2 =
      .str "template" :=
  ⟨(active_to_absent_roundtrip sampleEnvHidden activeState sampleChild rfl rfl).1,
   (active_to_absent_roundtrip sampleEnvHidden activeState sampleChild rfl rfl).2.1,
   (active_to_absent_roundtrip sampleEnvHidden activeState sampleChild rfl rfl).2.2.2⟩

/-- C9: `setValue(v)` first runs the `onSetValue` pre-hook on the base state;
then on an Absent field it stores `v` into `cachedValue` and returns — the
child stays absent and no other field changes — while on an Active field it
delegates the assignment to the child and leaves `cachedValue` (and the rest)
unchanged. -/
theorem setValue_frame (env : LazyEnv) (v : JSVal) (s : LazyState) :
    (s.child = none →
      LazyLinkfield.setValue env v s =
        { s with cachedValue := v, base := env.onSetValue v s.base }) ∧
    (∀ c, s.child = some c →
      LazyLinkfield.setValue env v s =
        { s with child := some { c with value := v },
                 base := env.onSetValue v s.base }) := by
  constructor
  · intro hc
    unfold LazyLinkfield.setValue
    rw [hc]
  · intro c hc
    unfold LazyLinkfield.setValue
    rw [hc]

/-- Evaluation of C9 on a fresh (Absent) field at the number 7. -/
theorem setValue_frame_witness :
    LazyLinkfield.setValue sampleEnv (.num 7) (freshState .undefined) =
      { freshState .undefined with
        cachedValue := .num 7
        base := sampleEnv.onSetValue (.num 7) (freshState .undefined).base } :=
  (setValue_frame sampleEnv (.num 7) (freshState .undefined)).1 rfl

/-- C10: the boolean returned by `shouldDisplay()` is exactly the base class
result, whatever the lazy-link state and whether a transition occurred; in
particular, with the base result true but a collapsed collapsible parent, it
still returns true while creating no child and leaving the whole state (child
absent, `cachedValue` untouched) unchanged. -/
theorem shouldDisplay_returns_base (env : LazyEnv) (s : LazyState) :
    (LazyLinkfield.shouldDisplay env s).1 = env.superShouldDisplay ∧
    (env.superShouldDisplay = true →
      (env.hasParent && env.parentIsCollapsible && env.parentCollapsed) = true →
      (LazyLinkfield.shouldDisplay env s).2 = s) := by
  constructor
  · unfold LazyLinkfield.shouldDisplay
    cases hd : env.superShouldDisplay with
    | true =>
      simp only [hd]
      split
      · split <;> rfl
      · rename_i h
        exact (h trivial).elim
    | false =>
      cases hs : s.child with
      | none => simp [hd, hs]
      | some c => simp [hd, hs]
  · intro hd hcol
    unfold LazyLinkfield.shouldDisplay
    simp [hd, hcol]

/-- Evaluation of C10 with a collapsed collapsible parent: the call returns
true yet leaves the fresh state untouched (still Absent). -/
theorem shouldDisplay_returns_base_witness :
    (LazyLinkfield.shouldDisplay sampleEnvCollapsed (freshState .undefined)).1 = true ∧
    (LazyLinkfield.shouldDisplay sampleEnvCollapsed (freshState .undefined)).2 =
      freshState .undefined :=
  ⟨(shouldDisplay_returns_base sampleEnvCollapsed (freshState .undefined)).1,
   (shouldDisplay_returns_base sampleEnvCollapsed (freshState .undefined)).2 rfl rfl⟩

/-- Looking up the binding just written by `setEntry` gives back the written
value. -/
theorem lookupProp_setEntry_self (fields : List (String × JSVal)) (key : String)
    (v : JSVal) : JSVal.lookupProp (JSVal.setEntry fields key v) key = v := by
  induction fields with
  | nil => simp [JSVal.setEntry, JSVal.lookupProp]
  | cons kv rest ih =>
    obtain ⟨k, w⟩ := kv
    by_cases hk : k = key
    · simp [JSVal.setEntry, JSVal.lookupProp, hk]
    · simp [JSVal.setEntry, JSVal.lookupProp, hk, ih]

/-- Reading a property just assigned on an object gives back the assigned
value. -/
theorem getProp_setProp_self (o : JSVal) (key : String) (v : JSVal)
    (h : o.isObj = true) : (o.setProp key v).getProp key = v := by
  cases o with
  | obj fields => simp [JSVal.setProp, JSVal.getProp, lookupProp_setEntry_self]
  | undefined => exact Bool.noConfusion h
  | null => exact Bool.noConfusion h
  | bool b => exact Bool.noConfusion h
  | num n => exact Bool.noConfusion h
  | str st => exact Bool.noConfusion h

/-- Property assignment keeps an object an object. -/
theorem isObj_setProp (o : JSVal) (key : String) (v : JSVal) :
    (o.setProp key v).isObj = o.isObj := by
  cases o <;> rfl

/-- C6: `revalidate(errorCollection)` attaches a child sub-result (the child
revalidation when a child exists, the trivially-valid `{valid: true}` when
none does) and sets the returned `childrenValid` to the `childrenValid` flag
of the child sub-result when present, else to its `valid` flag; in particular,
with no child the returned `childrenValid` is true, and with a child reporting
`childrenValid = false` it is false. -/
theorem revalidate_spec (env : LazyEnv) (ec : JSVal) (s : LazyState) :
    (LazyLinkfield.revalidate env ec s = revalidateFromSpec env ec s) ∧
    ((env.superRevalidate ec).isObj = true → s.child = none →
      (LazyLinkfield.revalidate env ec s).getProp "childrenValid" = .bool true) ∧
    (∀ c, s.child = some c → (env.superRevalidate ec).isObj = true →
      (c.revalidateFn ec).hasOwn "childrenValid" = true →
      (c.revalidateFn ec).getProp "childrenValid" = .bool false →
      (LazyLinkfield.revalidate env ec s).getProp "childrenValid" = .bool false) := by
  have hchildback : ∀ (base childResult : JSVal),
      (base.setProp "child" childResult).getProp "child" =
        (if base.isObj then childResult else .undefined) := by
    intro base childResult
    cases base with
    | obj fields =>
      simp [JSVal.isObj, getProp_setProp_self (JSVal.obj fields) "child" childResult rfl]
    | undefined => rfl
    | null => rfl
    | bool b => rfl
    | num n => rfl
    | str st => rfl
  refine ⟨?_, ?_, ?_⟩
  · unfold LazyLinkfield.revalidate revalidateFromSpec
    cases hb : env.superRevalidate ec with
    | obj fields => simp [hchildback, hb, JSVal.isObj]
    | undefined => simp [JSVal.setProp]
    | null => simp [JSVal.setProp]
    | bool b => simp [JSVal.setProp]
    | num n => simp [JSVal.setProp]
    | str st => simp [JSVal.setProp]
  · intro hobj hnone
    unfold LazyLinkfield.revalidate
    simp only [hnone]
    rw [hchildback, if_pos hobj]
    rw [getProp_setProp_self _ _ _ (by rw [isObj_setProp]; exact hobj)]
    rfl
  · intro c hsome hobj hflag hfalse
    unfold LazyLinkfield.revalidate
    simp only [hsome]
    rw [hchildback, if_pos hobj]
    rw [getProp_setProp_self _ _ _ (by rw [isObj_setProp]; exact hobj)]
    rw [hflag]
    simp [hfalse]

/-- Evaluation of C6 in the concrete environment: an Absent field reports
aggregated child validity true; a field whose child reports
`childrenValid = false` reports false. -/
theorem revalidate_spec_witness :
    (LazyLinkfield.revalidate sampleEnv .undefined (freshState .undefined)).getProp
      "childrenValid" = .bool true ∧
    (LazyLinkfield.revalidate sampleEnv .undefined
        { activeState with
          child := some { sampleChild with
            revalidateFn := fun _ =>
              .obj [("valid", .bool true), ("childrenValid", .bool false)] } }).getProp
      "childrenValid" = .bool false :=
  ⟨(revalidate_spec sampleEnv .undefined (freshState .undefined)).2.1 rfl rfl,
   (revalidate_spec sampleEnv .undefined
      { activeState with
        child := some { sampleChild with
          revalidateFn := fun _ =>
            .obj [("valid", .bool true), ("childrenValid", .bool false)] } }).2.2
      { sampleChild with
        revalidateFn := fun _ =>
          .obj [("valid", .bool true), ("childrenValid", .bool false)] }
      rfl rfl rfl rfl⟩

/-- C8: `resolvePath` first delegates to the base resolution and returns its
result when it yields one; only when the base yields nothing, a child exists
and the first segment is the `:child` marker does it recurse into the child
with the marker consumed; in every other failing case — no child, a different
head segment, or an empty path — it returns nothing. -/
theorem resolvePath_spec (env : LazyEnv) (s : LazyState) (path : List String) :
    (∀ r, env.superResolvePath path = some r →
      LazyLinkfield.resolvePath env s path = some r) ∧
    (env.superResolvePath path = none → ∀ c rest, s.child = some c →
      path = ":child" :: rest →
      LazyLinkfield.resolvePath env s path = c.resolvePathFn rest) ∧
    (env.superResolvePath path = none → s.child = none →
      LazyLinkfield.resolvePath env s path = none) ∧
    (env.superResolvePath path = none → ∀ p rest, path = p :: rest →
      ¬ p = ":child" → LazyLinkfield.resolvePath env s path = none) ∧
    (env.superResolvePath path = none → path = [] →
      LazyLinkfield.resolvePath env s path = none) := by
  refine ⟨?_, ?_, ?_, ?_, ?_⟩
  · intro r hr
    unfold LazyLinkfield.resolvePath
    rw [hr]
  · intro hn c rest hc hp
    subst hp
    unfold LazyLinkfield.resolvePath
    rw [hn, hc]
    simp
  · intro hn hc
    unfold LazyLinkfield.resolvePath
    rw [hn, hc]
  · intro hn p rest hp hnc
    subst hp
    unfold LazyLinkfield.resolvePath
    rw [hn]
    cases hc : s.child with
    | none => rfl
    | some c => simp [hnc]
  · intro hn hp
    subst hp
    unfold LazyLinkfield.resolvePath
    rw [hn]
    cases s.child <;> rfl

/-- Evaluation of C8: the Active field reaches node X through the child, the
Absent field resolves nothing. -/
theorem resolvePath_spec_witness :
    LazyLinkfield.resolvePath sampleEnv activeResolving [":child", "foo"] =
      some (.str "X") ∧
    LazyLinkfield.resolvePath sampleEnv (freshState .undefined) [":child", "foo"] =
      none :=
  ⟨((resolvePath_spec sampleEnv activeResolving [":child", "foo"]).2.1 rfl
      resolvingChild ["foo"] rfl rfl).trans rfl,
   (resolvePath_spec sampleEnv (freshState .undefined) [":child", "foo"]).2.2.1 rfl rfl⟩
